import Mathlib

/-!
Shallow embedding of the Product-Importer background pipeline
(src/api/worker.py) and of the status-poll endpoint (src/api/main.py).

The product table is modelled as a map from sku to the stored row;
the CSV file is modelled as the list of row batches that pandas
`read_csv(..., chunksize=...)` yields, each batch carrying its column
list (one header line plus one line per data row, so the file's line
count is `1 + number of data rows`).
-/

namespace ProductImporter

/-- A row of the `products` table, minus the key (worker.py: Product model;
only the columns the pipeline touches). -/
structure ProdRow where
  name : String
  description : String
  is_active : Bool
deriving DecidableEq

/-- The products table keyed by (already normalized) sku. -/
def Store := String → Option ProdRow

/-- The empty products table. -/
def emptyStore : Store := fun _ => none

/-- A normalized record as built at worker.py:105-112. -/
structure Record where
  sku : String
  name : String
  description : String
  is_active : Bool
deriving DecidableEq

/-- The exceptions the pipeline can raise (pandas KeyError, the explicit
ValueError of worker.py:102, the IntegrityError/DBAPIError of
worker.py:58, and an error escaping `trigger_webhooks`). -/
inductive PyError
  | keyError (k : String)
  | valueError (msg : String)
  | integrityError
  | dispatchError
deriving DecidableEq

/-- Effect of one row of the `INSERT .. ON CONFLICT (sku) DO UPDATE`
statement of worker.py:44-54: on conflict only `name` and `description`
are overwritten (`is_active` is not in the `set_` map); otherwise the
row is inserted as given. -/
def upsertRow (s : Store) (r : Record) : Store := fun k =>
  if k = r.sku then
    match s r.sku with
    | some old => some ⟨r.name, r.description, old.is_active⟩
    | none => some ⟨r.name, r.description, r.is_active⟩
  else s k

/-- `process_chunk` (worker.py:39-64): the whole batch is one statement,
committed on success and rolled back (the error re-raised) on failure.
PostgreSQL rejects an `ON CONFLICT DO UPDATE` statement in which two
value rows share the conflict key ("cannot affect row a second time"),
which surfaces as the caught `IntegrityError`/`DBAPIError`. -/
def process_chunk (records : List Record) (s : Store) : Except PyError Store :=
  if (records.map Record.sku).Nodup then .ok (records.foldl upsertRow s)
  else .error .integrityError

/-- The store the job continues with after attempting one batch:
the committed result on success, the unchanged store on rollback. -/
def runBatch (records : List Record) (s : Store) : Store :=
  match process_chunk records s with
  | .ok s' => s'
  | .error _ => s

/-- One CSV data row; `name`/`description` are `none` when the file has
no such column. The `sku` field is the raw cell text of the sku column. -/
structure CsvRow where
  sku : String
  name : Option String
  description : Option String
deriving DecidableEq

/-- One pandas chunk: the (shared) column names and the data rows. -/
structure Chunk where
  cols : List String
  rows : List CsvRow
deriving DecidableEq

/-- Python `str.lower()` (ASCII case folding, character by character). -/
def strLower (s : String) : String := ⟨s.data.map Char.toLower⟩

/-- Python `str.strip()`: drop leading and trailing whitespace. -/
def strTrim (s : String) : String :=
  ⟨((s.data.dropWhile Char.isWhitespace).reverse.dropWhile Char.isWhitespace).reverse⟩

/-- worker.py:93 — `chunk.columns = [c.lower() for c in chunk.columns]`. -/
def lowerCols (c : Chunk) : Chunk :=
  { c with cols := c.cols.map strLower }

/-- worker.py:96 — `chunk.drop_duplicates(subset=["sku"], keep="last")`
on the raw sku cell values: a row is kept iff no later row carries the
same raw sku. -/
def dropDupLast : List CsvRow → List CsvRow
  | [] => []
  | r :: rest =>
    if rest.any (fun r2 => r2.sku == r.sku) then dropDupLast rest
    else r :: dropDupLast rest

/-- worker.py:107-112 — build one record: sku lower-cased then stripped,
`name` defaulting to "Unknown", `description` to "", `is_active := True`. -/
def mkRecord (r : CsvRow) : Record :=
  { sku := strTrim (strLower r.sku)
    name := r.name.getD "Unknown"
    description := r.description.getD ""
    is_active := true }

/-- Per-chunk normalization, worker.py:91-112, in source order:
lower-case the column names (line 93); `drop_duplicates` on the sku
column (line 96) — pandas raises `KeyError` when the subset column is
absent; the required-column check (lines 99-102) raising `ValueError`;
then record building (lines 105-112). -/
def normalizeChunk (c0 : Chunk) : Except PyError (List Record) :=
  let c := lowerCols c0
  if "sku" ∈ c.cols then
    let rows := dropDupLast c.rows
    if "sku" ∈ c.cols then .ok (rows.map mkRecord)
    else .error (.valueError "Missing required columns in CSV")
  else .error (.keyError "sku")

/-- Celery task states as seen by a poller (main.py:90-109). -/
inductive TaskState
  | PENDING
  | STARTED
  | PROGRESS
  | SUCCESS
  | FAILURE
deriving DecidableEq

/-- One pollable status update of an import job: the implicit initial
PENDING, the explicit `update_state` calls of worker.py:81 and
worker.py:124-128, and the terminal result Celery records (the return
dict on success, the exception on failure). -/
inductive Upd
  | pending
  | started (current total : Nat)
  | progress (current total percent : Nat)
  | success (current total : Nat)
  | failure
deriving DecidableEq

/-- The `current` counter carried by a status update, when it has one. -/
def Upd.current? : Upd → Option Nat
  | .pending => none
  | .started c _ => some c
  | .progress c _ _ => some c
  | .success c _ => some c
  | .failure => none

/-- Position of a status update along the one-directional lifecycle
PENDING → STARTED → PROGRESS* → SUCCESS | FAILURE. -/
def Upd.rank : Upd → Nat
  | .pending => 0
  | .started _ _ => 1
  | .progress _ _ _ => 2
  | .success _ _ => 3
  | .failure => 3

/-- The `current` values a poller sees along a status trace. -/
def currents (tr : List Upd) : List Nat := tr.filterMap Upd.current?

/-- Result of the per-chunk loop of worker.py:91-128. -/
structure ChunkPhase where
  store : Store
  processed : Nat
  upds : List Upd
  err : Option PyError

/-- The chunk loop (worker.py:91-128): normalize the chunk, write the
batch through `process_chunk`, bump `processed_count` by the number of
(deduplicated) records, and emit one PROGRESS update; the first raised
exception aborts the loop. -/
def runChunks (T : Nat) : Store → Nat → List Chunk → ChunkPhase
  | s, p, [] => ⟨s, p, [], none⟩
  | s, p, c :: cs =>
    match normalizeChunk c with
    | .error e => ⟨s, p, [], some e⟩
    | .ok recs =>
      match process_chunk recs s with
      | .error e => ⟨s, p, [], some e⟩
      | .ok s' =>
        let p' := p + recs.length
        let rest := runChunks T s' p' cs
        ⟨rest.store, rest.processed,
          .progress p' T (p' * 100 / T) :: rest.upds, rest.err⟩

/-- The input of one import job: the chunks pandas yields for the file,
and whether the completion dispatch (`trigger_webhooks`, worker.py:142,
a database read plus broker enqueues) raises. -/
structure JobEnv where
  chunks : List Chunk
  dispatchFails : Bool

/-- Physical line count of the source file: one header line plus one
line per data row. -/
def fileLineCount (env : JobEnv) : Nat :=
  1 + (env.chunks.map fun c => c.rows.length).sum

/-- worker.py:79 — `total_rows = sum(1 for _ in open(file_path)) - 1`. -/
def total_rows (env : JobEnv) : Nat := fileLineCount env - 1

/-- The completion-event payload built at worker.py:134-141. -/
structure WebhookPayload where
  event : String
  total_rows : Nat
  processed_rows : Nat
  status : String
deriving DecidableEq

/-- Everything observable about one run of `process_csv_upload`:
the status-update trace, the terminal Celery state, the final store,
whether the source file was removed, the final `processed_count`, the
completion payload (once built), the returned meta `(current, total)`
on success, and the escaping exception on failure. -/
structure ImportResult where
  trace : List Upd
  finalState : TaskState
  store : Store
  fileDeleted : Bool
  processed : Nat
  payload : Option WebhookPayload
  result : Option (Nat × Nat)
  error : Option PyError

/-- `process_csv_upload` (worker.py:66-148): STARTED with current 0,
then the chunk loop; on success of every batch the file is removed
(line 131), the completion payload built (lines 134-141) and dispatched
(line 142), and the task returns `{'current': total_rows, 'total':
total_rows, ...}` (line 144). Any exception — from a batch or from the
dispatch — is re-raised (lines 146-148), which Celery records as
FAILURE. -/
def process_csv_upload (env : JobEnv) (s : Store) : ImportResult :=
  let T := total_rows env
  let ph := runChunks T s 0 env.chunks
  match ph.err with
  | some e =>
    { trace := .pending :: .started 0 T :: ph.upds ++ [.failure]
      finalState := .FAILURE
      store := ph.store
      fileDeleted := false
      processed := ph.processed
      payload := none
      result := none
      error := some e }
  | none =>
    let payload : WebhookPayload := ⟨"import_completed", T, T, "completed"⟩
    if env.dispatchFails then
      { trace := .pending :: .started 0 T :: ph.upds ++ [.failure]
        finalState := .FAILURE
        store := ph.store
        fileDeleted := true
        processed := ph.processed
        payload := some payload
        result := none
        error := some .dispatchError }
    else
      { trace := .pending :: .started 0 T :: ph.upds ++ [.success T T]
        finalState := .SUCCESS
        store := ph.store
        fileDeleted := true
        processed := ph.processed
        payload := some payload
        result := some (T, T)
        error := none }

/-- The `progress` field of the poll endpoint `get_task_status`
(main.py:90-109): the stored percent while in PROGRESS, hardcoded 100
at SUCCESS, 0 otherwise. -/
def get_task_status (st : TaskState) (percentMeta : Nat) : Nat :=
  match st with
  | .PROGRESS => percentMeta
  | .SUCCESS => 100
  | _ => 0

/-- A webhook subscription row (models.Webhook, the fields the worker
reads). -/
structure Webhook where
  url : String
  event_type : String
  is_active : Bool
deriving DecidableEq

/-- `get_active_webhooks` (worker.py:212-217): `SELECT .. WHERE
event_type = :et AND is_active = true`. -/
def get_active_webhooks (event_type : String) (subs : List Webhook) : List Webhook :=
  subs.filter fun w => w.event_type == event_type && w.is_active

/-- One scheduled Delivery Worker invocation, the arguments of
`deliver_webhook.delay(webhook.url, payload, event_type)`
(worker.py:226). -/
structure Invocation where
  url : String
  payload : WebhookPayload
  event_type : String
deriving DecidableEq

/-- `trigger_webhooks` (worker.py:219-228): the for-loop enqueuing one
delivery task per selected subscription. -/
def trigger_webhooks (event_type : String) (payload : WebhookPayload)
    (subs : List Webhook) : List Invocation :=
  (get_active_webhooks event_type subs).foldl
    (fun acc w => acc ++ [⟨w.url, payload, event_type⟩]) []

/-- What one outbound POST attempt of `send_webhook` can run into. -/
inductive AttemptEvent
  | connError
  | timeoutErr
  | response (status : Nat)
deriving DecidableEq

/-- httpx `Response.is_success`, the predicate behind
`raise_for_status`: status in [200, 300). -/
def is_success (status : Nat) : Bool := 200 ≤ status && status < 300

/-- `send_webhook` (worker.py:175-197): returns True on a 2xx response;
a timeout, a connection error, or `raise_for_status` on any non-2xx
response re-raises, i.e. the attempt does not succeed. -/
def send_webhook : AttemptEvent → Bool
  | .response c => is_success c
  | .connError => false
  | .timeoutErr => false

/-- Outcome of one run of the `deliver_webhook` task body. -/
inductive DeliveryOutcome
  | delivered
  | retryScheduled (countdown : Nat)
  | failed
deriving DecidableEq

/-- `deliver_webhook` (worker.py:167-210) at retry count `retries` with
`max_retries maxR`: success returns True; otherwise, if `retries <
max_retries`, re-enqueue after `2 ** retries` seconds; else return the
non-exceptional False. -/
def deliver_webhook (maxR retries : Nat) (e : AttemptEvent) : DeliveryOutcome :=
  if send_webhook e then .delivered
  else if retries < maxR then .retryScheduled (2 ^ retries)
  else .failed

/-- A whole delivery chain: feed successive attempt events through
`deliver_webhook`, Celery bumping `request.retries` on each re-enqueue.
Returns the scheduled backoff delays in order and the terminal outcome
(`some true` delivered, `some false` the terminal False). -/
def runChain (maxR : Nat) : Nat → List AttemptEvent → List Nat × Option Bool
  | _, [] => ([], none)
  | n, e :: rest =>
    match deliver_webhook maxR n e with
    | .delivered => ([], some true)
    | .failed => ([], some false)
    | .retryScheduled d =>
      let p := runChain maxR (n + 1) rest
      (d :: p.1, p.2)

/-- Total number of data rows across the file's chunks (`total_rows`
again, but summed chunk-wise; equal to `total_rows`, see
`total_rows_eq`). -/
def rowsSum (cs : List Chunk) : Nat := (cs.map fun c => c.rows.length).sum

/-- Number of rows surviving the per-chunk `drop_duplicates`: what the
job actually hands to the store across the file. -/
def dedupSum (cs : List Chunk) : Nat :=
  (cs.map fun c => (dropDupLast c.rows).length).sum

/-- A well-formed single-row chunk used as concrete input. -/
def okChunk : Chunk :=
  { cols := ["sku", "name"], rows := [⟨"w1", some "Widget One", none⟩] }

/-- A chunk whose columns lack `sku`. -/
def badChunk : Chunk :=
  { cols := ["name", "description"], rows := [⟨"x", some "Widget Two", none⟩] }

/-- The spec's intra-batch dedup example: `ABC123` then `abc123`. -/
def c2chunk : Chunk :=
  { cols := ["sku", "name"]
    rows := [⟨"ABC123", some "Widget", none⟩, ⟨"abc123", some "Widget2", none⟩] }

/-- The two records `normalizeChunk` produces for `c2chunk`. -/
def c2rec1 : Record := ⟨"abc123", "Widget", "", true⟩

/-- Second record of `c2chunk` after normalization. -/
def c2rec2 : Record := ⟨"abc123", "Widget2", "", true⟩

/-- An import whose second batch lacks the sku column. -/
def envC3 : JobEnv := { chunks := [okChunk, badChunk], dispatchFails := false }

/-- A one-batch import whose completion dispatch succeeds. -/
def envOkDispatchOk : JobEnv := { chunks := [okChunk], dispatchFails := false }

/-- The same one-batch import, but the completion dispatch raises. -/
def envOkDispatchFail : JobEnv := { chunks := [okChunk], dispatchFails := true }

/-- An import whose single chunk holds two rows with the same raw sku,
so the dedup drops one. -/
def dupEnv : JobEnv :=
  { chunks := [⟨["sku"], [⟨"dup", none, none⟩, ⟨"dup", none, none⟩]⟩]
    dispatchFails := false }

/-- A sample active subscription. -/
def subA : Webhook := ⟨"http://a.example", "import_completed", true⟩

lemma foldl_upsert_not_mem : ∀ (rs : List Record) (s : Store) (k : String),
    k ∉ rs.map Record.sku → (rs.foldl upsertRow s) k = s k
  | [], _, _, _ => rfl
  | r :: rs, s, k, hk => by
    simp only [List.map_cons, List.mem_cons, not_or] at hk
    simp only [List.foldl_cons]
    rw [foldl_upsert_not_mem rs (upsertRow s r) k hk.2]
    simp [upsertRow, hk.1]

lemma foldl_upsert_mem : ∀ (rs : List Record) (s : Store) (r : Record),
    r ∈ rs → (rs.map Record.sku).Nodup →
    (rs.foldl upsertRow s) r.sku =
      (match s r.sku with
        | some old => some ⟨r.name, r.description, old.is_active⟩
        | none => some ⟨r.name, r.description, r.is_active⟩)
  | [], _, r, h, _ => absurd h (List.not_mem_nil r)
  | a :: rs, s, r, h, hnd => by
    simp only [List.map_cons, List.nodup_cons] at hnd
    rcases List.mem_cons.mp h with h1 | h2
    · subst h1
      simp only [List.foldl_cons]
      rw [foldl_upsert_not_mem rs (upsertRow s r) r.sku hnd.1]
      simp [upsertRow]
    · have hne : a.sku ≠ r.sku := by
        intro he
        exact hnd.1 (he ▸ List.mem_map_of_mem Record.sku h2)
      have hne' : ¬(r.sku = a.sku) := fun hh => hne hh.symm
      simp only [List.foldl_cons]
      rw [foldl_upsert_mem rs (upsertRow s a) r h2 hnd.2]
      have hrw : (upsertRow s a) r.sku = s r.sku := by simp [upsertRow, hne']
      rw [hrw]

/-- C1: every batch applied by `process_chunk` is one atomic conditional
write: when it succeeds, each record whose sku already exists has only
its `name` and `description` overwritten (the stored `is_active` is
kept, even if false), each record with an absent sku is inserted with
`is_active = true`, and no other key changes; when the statement fails,
the transaction is rolled back and the store is unchanged. -/
theorem process_chunk_upsert_atomic (s : Store) (rs : List Record)
    (hact : ∀ r ∈ rs, r.is_active = true) :
    ((rs.map Record.sku).Nodup →
      ∃ s', process_chunk rs s = .ok s' ∧
        (∀ r ∈ rs,
          (∀ old, s r.sku = some old →
            s' r.sku = some ⟨r.name, r.description, old.is_active⟩) ∧
          (s r.sku = none → s' r.sku = some ⟨r.name, r.description, true⟩)) ∧
        (∀ k, k ∉ rs.map Record.sku → s' k = s k)) ∧
    (∀ e, process_chunk rs s = .error e → runBatch rs s = s) := by
  constructor
  · intro hnd
    refine ⟨rs.foldl upsertRow s, by simp [process_chunk, hnd], ?_, ?_⟩
    · intro r hr
      have hm := foldl_upsert_mem rs s r hr hnd
      constructor
      · intro old hold
        rw [hm, hold]
      · intro hnone
        rw [hm, hnone, hact r hr]
    · exact fun k hk => foldl_upsert_not_mem rs s k hk
  · intro e he
    simp [runBatch, he]

/-- Witness for C1 at a concrete batch and the empty store. -/
theorem process_chunk_upsert_atomic_witness :
    ∃ s', process_chunk [⟨"a", "n", "d", true⟩] emptyStore = .ok s' ∧
      s' "a" = some ⟨"n", "d", true⟩ := by
  obtain ⟨s', hok, hrows, -⟩ :=
    (process_chunk_upsert_atomic emptyStore [⟨"a", "n", "d", true⟩]
      (by intro r hr; rw [List.mem_singleton] at hr; subst hr; rfl)).1 (by simp)
  exact ⟨s', hok, (hrows ⟨"a", "n", "d", true⟩ (List.mem_singleton.mpr rfl)).2 rfl⟩

lemma foldl_enqueue (p : WebhookPayload) (et : String) :
    ∀ (l : List Webhook) (acc : List Invocation),
      l.foldl (fun a w => a ++ [⟨w.url, p, et⟩]) acc
        = acc ++ l.map (fun w => (⟨w.url, p, et⟩ : Invocation))
  | [], acc => by simp
  | w :: l, acc => by
    simp only [List.foldl_cons, List.map_cons]
    rw [foldl_enqueue p et l (acc ++ [(⟨w.url, p, et⟩ : Invocation)])]
    simp

/-- C9: one dispatch schedules exactly one Delivery Worker invocation
`(url, payload, event_type)` per subscription with matching event type
and `is_active = true`, and a subscription with `is_active = false` is
never selected, even on an exact event-type match. -/
theorem trigger_webhooks_fanout (et : String) (p : WebhookPayload)
    (subs : List Webhook) :
    ((trigger_webhooks et p subs).length
        = subs.countP fun w => w.event_type == et && w.is_active) ∧
    (∀ w ∈ subs, w.event_type = et → w.is_active = true →
      (⟨w.url, p, et⟩ : Invocation) ∈ trigger_webhooks et p subs) ∧
    (∀ w ∈ subs, w.is_active = false → w ∉ get_active_webhooks et subs) := by
  have ht : trigger_webhooks et p subs
      = (get_active_webhooks et subs).map
          (fun w => (⟨w.url, p, et⟩ : Invocation)) := by
    unfold trigger_webhooks
    rw [foldl_enqueue]
    simp
  refine ⟨?_, ?_, ?_⟩
  · rw [ht, List.length_map, List.countP_eq_length_filter]
    rfl
  · intro w hw hev hact
    rw [ht]
    refine List.mem_map.mpr ⟨w, ?_, rfl⟩
    exact List.mem_filter.mpr ⟨hw, by simp [hev, hact]⟩
  · intro w hw hina hmem
    have := (List.mem_filter.mp hmem).2
    simp [hina] at this

/-- Witness for C9: a matching active subscription receives one
invocation. -/
theorem trigger_webhooks_fanout_witness :
    (⟨"http://a.example", ⟨"import_completed", 2, 2, "completed"⟩,
        "import_completed"⟩ : Invocation)
      ∈ trigger_webhooks "import_completed"
          ⟨"import_completed", 2, 2, "completed"⟩ [subA] :=
  (trigger_webhooks_fanout "import_completed"
      ⟨"import_completed", 2, 2, "completed"⟩ [subA]).2.1
    subA (List.mem_singleton.mpr rfl) rfl rfl

/-- C4: with the default `max_retries = 3`, four consecutive failed
attempts are re-scheduled with backoff delays 2^0, 2^1, 2^2 seconds
(before the second, third and fourth attempts), and after the fourth
failure the chain ends in the returned, non-exceptional value False. -/
theorem deliver_webhook_retry_schedule (es : List AttemptEvent)
    (hlen : es.length = 4) (hfail : ∀ e ∈ es, send_webhook e = false) :
    runChain 3 0 es = ([1, 2, 4], some false) := by
  rcases es with - | ⟨a, - | ⟨b, - | ⟨c, - | ⟨d, - | ⟨e, tl⟩⟩⟩⟩⟩ <;> simp at hlen
  have ha := hfail a (by simp)
  have hb := hfail b (by simp)
  have hc := hfail c (by simp)
  have hd := hfail d (by simp)
  simp [runChain, deliver_webhook, ha, hb, hc, hd]

/-- Witness for C4: a timeout, a connection error, a 5xx and a 3xx in a
row yield delays 1, 2, 4 and the terminal False. -/
theorem deliver_webhook_retry_schedule_witness :
    runChain 3 0 [.connError, .timeoutErr, .response 500, .response 301]
      = ([1, 2, 4], some false) :=
  deliver_webhook_retry_schedule _ rfl (by decide)

/-- C5: one delivery attempt is classified as delivered iff the HTTP
response status is 2xx; a connection error, a timeout, or any non-2xx
response (3xx included) is a failure of that attempt. -/
theorem deliver_webhook_outcome_classification (maxR n : Nat)
    (e : AttemptEvent) :
    deliver_webhook maxR n e = .delivered
      ↔ ∃ c, e = .response c ∧ 200 ≤ c ∧ c < 300 := by
  cases e with
  | connError =>
    constructor
    · intro h
      exfalso
      by_cases hn : n < maxR <;> simp [deliver_webhook, send_webhook, hn] at h
    · rintro ⟨c, hc, -, -⟩
      exact AttemptEvent.noConfusion hc
  | timeoutErr =>
    constructor
    · intro h
      exfalso
      by_cases hn : n < maxR <;> simp [deliver_webhook, send_webhook, hn] at h
    · rintro ⟨c, hc, -, -⟩
      exact AttemptEvent.noConfusion hc
  | response c =>
    simp only [deliver_webhook, send_webhook]
    constructor
    · intro h
      by_cases hs : is_success c = true
      · refine ⟨c, rfl, ?_⟩
        simpa [is_success] using hs
      · rw [if_neg hs] at h
        split at h <;> simp_all
    · rintro ⟨c', hc, h1, h2⟩
      injection hc with hcc
      subst hcc
      have hs : is_success c = true := by
        simp [is_success]
        omega
      rw [if_pos hs]

lemma runChunks_nil (T : Nat) (s : Store) (p : Nat) :
    runChunks T s p [] = ⟨s, p, [], none⟩ := rfl

lemma runChunks_cons_err_norm (T : Nat) (s : Store) (p : Nat) (c : Chunk)
    (cs : List Chunk) (e : PyError) (h : normalizeChunk c = .error e) :
    runChunks T s p (c :: cs) = ⟨s, p, [], some e⟩ := by
  simp [runChunks, h]

lemma runChunks_cons_err_db (T : Nat) (s : Store) (p : Nat) (c : Chunk)
    (cs : List Chunk) (recs : List Record) (e : PyError)
    (h : normalizeChunk c = .ok recs) (h2 : process_chunk recs s = .error e) :
    runChunks T s p (c :: cs) = ⟨s, p, [], some e⟩ := by
  simp [runChunks, h, h2]

lemma runChunks_cons_ok (T : Nat) (s : Store) (p : Nat) (c : Chunk)
    (cs : List Chunk) (recs : List Record) (s' : Store)
    (h : normalizeChunk c = .ok recs) (h2 : process_chunk recs s = .ok s') :
    runChunks T s p (c :: cs) =
      ⟨(runChunks T s' (p + recs.length) cs).store,
        (runChunks T s' (p + recs.length) cs).processed,
        .progress (p + recs.length) T ((p + recs.length) * 100 / T)
          :: (runChunks T s' (p + recs.length) cs).upds,
        (runChunks T s' (p + recs.length) cs).err⟩ := by
  simp [runChunks, h, h2]

lemma rowsSum_cons (c : Chunk) (cs : List Chunk) :
    rowsSum (c :: cs) = c.rows.length + rowsSum cs := by
  simp [rowsSum]

lemma dedupSum_cons (c : Chunk) (cs : List Chunk) :
    dedupSum (c :: cs) = (dropDupLast c.rows).length + dedupSum cs := by
  simp [dedupSum]

lemma total_rows_eq (env : JobEnv) : total_rows env = rowsSum env.chunks := by
  simp [total_rows, fileLineCount, rowsSum]

lemma dropDupLast_length_le : ∀ rs : List CsvRow,
    (dropDupLast rs).length ≤ rs.length
  | [] => by simp [dropDupLast]
  | r :: rest => by
    simp only [dropDupLast]
    split
    · have := dropDupLast_length_le rest
      simp only [List.length_cons]
      omega
    · simp only [List.length_cons]
      exact Nat.succ_le_succ (dropDupLast_length_le rest)

lemma lowerCols_rows (c : Chunk) : (lowerCols c).rows = c.rows := rfl

lemma normalizeChunk_ok_length (c : Chunk) (recs : List Record)
    (h : normalizeChunk c = .ok recs) :
    recs.length = (dropDupLast c.rows).length := by
  simp only [normalizeChunk] at h
  split at h
  · injection h with h'
    subst h'
    rw [List.length_map, lowerCols_rows]
  · simp at h

lemma currents_nil : currents [] = [] := rfl

lemma currents_cons_progress (c t pc : Nat) (l : List Upd) :
    currents (.progress c t pc :: l) = c :: currents l := by
  simp [currents, Upd.current?]

lemma runChunks_rank : ∀ (cs : List Chunk) (T : Nat) (s : Store) (p : Nat),
    ∀ u ∈ (runChunks T s p cs).upds, Upd.rank u = 2
  | [], T, s, p => by simp [runChunks_nil]
  | c :: cs, T, s, p => by
    cases hn : normalizeChunk c with
    | error e => rw [runChunks_cons_err_norm T s p c cs e hn]; simp
    | ok recs =>
      cases hp : process_chunk recs s with
      | error e => rw [runChunks_cons_err_db T s p c cs recs e hn hp]; simp
      | ok s' =>
        rw [runChunks_cons_ok T s p c cs recs s' hn hp]
        intro u hu
        rcases List.mem_cons.mp hu with h1 | h2
        · subst h1; rfl
        · exact runChunks_rank cs T s' (p + recs.length) u h2

lemma runChunks_processed_le : ∀ (cs : List Chunk) (T : Nat) (s : Store)
    (p : Nat), (runChunks T s p cs).processed ≤ p + rowsSum cs
  | [], T, s, p => by simp [runChunks_nil]
  | c :: cs, T, s, p => by
    cases hn : normalizeChunk c with
    | error e =>
      rw [runChunks_cons_err_norm T s p c cs e hn]
      exact Nat.le_add_right _ _
    | ok recs =>
      cases hp : process_chunk recs s with
      | error e =>
        rw [runChunks_cons_err_db T s p c cs recs e hn hp]
        exact Nat.le_add_right _ _
      | ok s' =>
        rw [runChunks_cons_ok T s p c cs recs s' hn hp]
        have h1 := runChunks_processed_le cs T s' (p + recs.length)
        have h2 : recs.length ≤ c.rows.length :=
          (normalizeChunk_ok_length c recs hn) ▸ dropDupLast_length_le c.rows
        rw [rowsSum_cons]
        dsimp only
        omega

lemma runChunks_ok_processed : ∀ (cs : List Chunk) (T : Nat) (s : Store)
    (p : Nat), (runChunks T s p cs).err = none →
    (runChunks T s p cs).processed = p + dedupSum cs
  | [], T, s, p, _ => by simp [runChunks_nil, dedupSum]
  | c :: cs, T, s, p, h => by
    cases hn : normalizeChunk c with
    | error e =>
      rw [runChunks_cons_err_norm T s p c cs e hn] at h
      simp at h
    | ok recs =>
      cases hp : process_chunk recs s with
      | error e =>
        rw [runChunks_cons_err_db T s p c cs recs e hn hp] at h
        simp at h
      | ok s' =>
        rw [runChunks_cons_ok T s p c cs recs s' hn hp] at h ⊢
        dsimp only at h ⊢
        rw [runChunks_ok_processed cs T s' (p + recs.length) h,
          dedupSum_cons, normalizeChunk_ok_length c recs hn]
        omega

lemma runChunks_currents_bounds : ∀ (cs : List Chunk) (T : Nat) (s : Store)
    (p : Nat), ∀ x ∈ currents (runChunks T s p cs).upds,
    p ≤ x ∧ x ≤ p + rowsSum cs
  | [], T, s, p => by simp [runChunks_nil, currents_nil]
  | c :: cs, T, s, p => by
    cases hn : normalizeChunk c with
    | error e =>
      rw [runChunks_cons_err_norm T s p c cs e hn]
      simp [currents_nil]
    | ok recs =>
      cases hp : process_chunk recs s with
      | error e =>
        rw [runChunks_cons_err_db T s p c cs recs e hn hp]
        simp [currents_nil]
      | ok s' =>
        rw [runChunks_cons_ok T s p c cs recs s' hn hp]
        dsimp only
        rw [currents_cons_progress]
        intro x hx
        have h2 : recs.length ≤ c.rows.length :=
          (normalizeChunk_ok_length c recs hn) ▸ dropDupLast_length_le c.rows
        rw [rowsSum_cons]
        rcases List.mem_cons.mp hx with h1 | h1
        · subst h1
          omega
        · have := runChunks_currents_bounds cs T s' (p + recs.length) x h1
          omega

lemma runChunks_chain : ∀ (cs : List Chunk) (T : Nat) (s : Store) (p : Nat),
    List.Chain' (· ≤ ·) (p :: currents (runChunks T s p cs).upds)
  | [], T, s, p => by simp [runChunks_nil, currents_nil]
  | c :: cs, T, s, p => by
    cases hn : normalizeChunk c with
    | error e =>
      rw [runChunks_cons_err_norm T s p c cs e hn]
      simp [currents_nil]
    | ok recs =>
      cases hp : process_chunk recs s with
      | error e =>
        rw [runChunks_cons_err_db T s p c cs recs e hn hp]
        simp [currents_nil]
      | ok s' =>
        rw [runChunks_cons_ok T s p c cs recs s' hn hp]
        dsimp only
        rw [currents_cons_progress]
        exact List.chain'_cons.mpr
          ⟨Nat.le_add_right _ _, runChunks_chain cs T s' (p + recs.length)⟩

lemma chain'_le_append_singleton : ∀ (l : List Nat) (x : Nat),
    List.Chain' (· ≤ ·) l → (∀ a ∈ l, a ≤ x) →
    List.Chain' (· ≤ ·) (l ++ [x])
  | [], x, _, _ => by simp
  | [a], x, _, hx => by
    simp only [List.cons_append, List.nil_append]
    exact List.chain'_pair.mpr (hx a (by simp))
  | a :: b :: l, x, h, hx => by
    simp only [List.cons_append]
    rw [List.chain'_cons]
    rw [List.chain'_cons] at h
    refine ⟨h.1, ?_⟩
    have hrec := chain'_le_append_singleton (b :: l) x h.2
      (fun c hc => hx c (List.mem_cons_of_mem _ hc))
    simpa using hrec

lemma chain'_ranks_aux : ∀ l : List Nat, (∀ x ∈ l, x = 2) →
    List.Chain' (· ≤ ·) (2 :: l ++ [3])
  | [], _ => by
    exact List.chain'_pair.mpr (by omega)
  | a :: l, h => by
    have ha : a = 2 := h a (by simp)
    subst ha
    simp only [List.cons_append]
    rw [List.chain'_cons]
    refine ⟨le_refl 2, ?_⟩
    have hrec := chain'_ranks_aux l fun x hx => h x (by simp [hx])
    simpa using hrec

lemma chain'_ranks (l : List Nat) (h : ∀ x ∈ l, x = 2) :
    List.Chain' (· ≤ ·) (0 :: 1 :: l ++ [3]) := by
  cases l with
  | nil =>
    exact List.chain'_cons.mpr ⟨by omega, List.chain'_pair.mpr (by omega)⟩
  | cons a l2 =>
    have ha : a = 2 := h a (by simp)
    subst ha
    simp only [List.cons_append]
    rw [List.chain'_cons, List.chain'_cons]
    refine ⟨by omega, by omega, ?_⟩
    have hrec := chain'_ranks_aux l2 fun x hx => h x (by simp [hx])
    simpa using hrec

lemma dedupSum_le_rowsSum : ∀ cs : List Chunk, dedupSum cs ≤ rowsSum cs
  | [] => by simp [dedupSum, rowsSum]
  | c :: cs => by
    rw [dedupSum_cons, rowsSum_cons]
    have h1 := dropDupLast_length_le c.rows
    have h2 := dedupSum_le_rowsSum cs
    omega

lemma dedupSum_lt_of_dropped : ∀ cs : List Chunk,
    (∃ c ∈ cs, (dropDupLast c.rows).length < c.rows.length) →
    dedupSum cs < rowsSum cs
  | [], h => by simp at h
  | c :: cs, h => by
    rw [dedupSum_cons, rowsSum_cons]
    rcases h with ⟨c', hc', hlt⟩
    rcases List.mem_cons.mp hc' with h1 | h2
    · subst h1
      have hle := dedupSum_le_rowsSum cs
      omega
    · have hle := dropDupLast_length_le c.rows
      have hrec := dedupSum_lt_of_dropped cs ⟨c', h2, hlt⟩
      omega

lemma success_iff (env : JobEnv) (s : Store) :
    (process_csv_upload env s).finalState = .SUCCESS ↔
      ((runChunks (total_rows env) s 0 env.chunks).err = none ∧
        env.dispatchFails = false) := by
  cases herr : (runChunks (total_rows env) s 0 env.chunks).err with
  | some e => simp [process_csv_upload, herr]
  | none => cases hdf : env.dispatchFails <;> simp [process_csv_upload, herr, hdf]

lemma trace_invariants_generic (T : Nat) (upds : List Upd) (term : Upd)
    (hchain : List.Chain' (· ≤ ·) (0 :: currents upds))
    (hbound : ∀ x ∈ currents upds, x ≤ T)
    (hrank : ∀ u ∈ upds, Upd.rank u = 2)
    (hterm : term = Upd.failure ∨ term = Upd.success T T) :
    List.Chain' (· ≤ ·)
        (currents (Upd.pending :: Upd.started 0 T :: upds ++ [term])) ∧
    (∀ x ∈ currents (Upd.pending :: Upd.started 0 T :: upds ++ [term]),
      x ≤ T) ∧
    List.Chain' (· ≤ ·)
      ((Upd.pending :: Upd.started 0 T :: upds ++ [term]).map Upd.rank) := by
  have hrk : ∀ y ∈ upds.map Upd.rank, y = 2 := by
    intro y hy
    obtain ⟨u, hu, rfl⟩ := List.mem_map.mp hy
    exact hrank u hu
  rcases hterm with rfl | rfl
  · have hc : currents (Upd.pending :: Upd.started 0 T :: upds ++ [Upd.failure])
        = 0 :: currents upds := by
      simp [currents, Upd.current?, List.filterMap_append, List.filterMap_cons]
    have hr : (Upd.pending :: Upd.started 0 T :: upds ++ [Upd.failure]).map Upd.rank
        = 0 :: 1 :: upds.map Upd.rank ++ [3] := by
      simp [Upd.rank, List.map_append]
    refine ⟨?_, ?_, ?_⟩
    · rw [hc]; exact hchain
    · rw [hc]
      intro x hx
      rcases List.mem_cons.mp hx with h1 | h2
      · subst h1; exact Nat.zero_le _
      · exact hbound x h2
    · rw [hr]; exact chain'_ranks _ hrk
  · have hc : currents
          (Upd.pending :: Upd.started 0 T :: upds ++ [Upd.success T T])
        = 0 :: (currents upds ++ [T]) := by
      simp [currents, Upd.current?, List.filterMap_append, List.filterMap_cons]
    have hr : (Upd.pending :: Upd.started 0 T :: upds
          ++ [Upd.success T T]).map Upd.rank
        = 0 :: 1 :: upds.map Upd.rank ++ [3] := by
      simp [Upd.rank, List.map_append]
    refine ⟨?_, ?_, ?_⟩
    · rw [hc]
      have hall : ∀ a ∈ (0 : Nat) :: currents upds, a ≤ T := by
        intro a ha
        rcases List.mem_cons.mp ha with h1 | h2
        · subst h1; exact Nat.zero_le _
        · exact hbound a h2
      have := chain'_le_append_singleton (0 :: currents upds) T hchain hall
      simpa using this
    · rw [hc]
      intro x hx
      rcases List.mem_cons.mp hx with h1 | h2
      · subst h1; exact Nat.zero_le _
      · rcases List.mem_append.mp h2 with h3 | h3
        · exact hbound x h3
        · rw [List.mem_singleton] at h3; subst h3; exact le_refl _
    · rw [hr]; exact chain'_ranks _ hrk

/-- C2 (refuting the claimed dedup): the dedup of worker.py:96 runs on
the raw sku before the lower-casing of worker.py:108, so the batch
`(sku="ABC123", name="Widget")` then `(sku="abc123", name="Widget2")`
does NOT collapse: normalization yields two records both keyed
"abc123", and the single upsert statement for that batch then fails
with the very ON CONFLICT double-update error the dedup was meant to
avoid. -/
theorem dedup_misses_case_variants :
    normalizeChunk c2chunk = .ok [c2rec1, c2rec2] ∧
    c2rec1.sku = c2rec2.sku ∧
    c2rec1.name = "Widget" ∧ c2rec2.name = "Widget2" ∧
    process_chunk [c2rec1, c2rec2] emptyStore = .error .integrityError :=
  ⟨by rfl, by rfl, by rfl, by rfl, by rfl⟩

/-- C3 (refuting the exception type): a batch whose lower-cased columns
lack `sku` makes `drop_duplicates(subset=["sku"])` (worker.py:96) raise
`KeyError` before the explicit required-column `ValueError` check
(worker.py:99-102) can run. The job still fails with FAILURE, no row of
the offending batch is written, and `current` keeps the last committed
batch's value (1), but the error is `KeyError`, not the spec's
`ValidationError`. -/
theorem missing_sku_raises_keyerror :
    (process_csv_upload envC3 emptyStore).finalState = .FAILURE ∧
    (process_csv_upload envC3 emptyStore).error = some (.keyError "sku") ∧
    (process_csv_upload envC3 emptyStore).processed = 1 ∧
    (process_csv_upload envC3 emptyStore).store "w1"
        = some ⟨"Widget One", "", true⟩ ∧
    (process_csv_upload envC3 emptyStore).store "x" = none :=
  ⟨by decide, by decide, by decide, by decide, by decide⟩

/-- Witness for C5: a 204 is delivered, a 301 is not. -/
theorem deliver_webhook_outcome_classification_witness :
    deliver_webhook 3 0 (.response 204) = .delivered ∧
    deliver_webhook 3 0 (.response 301) ≠ .delivered := by
  constructor
  · exact (deliver_webhook_outcome_classification 3 0 (.response 204)).mpr
      ⟨204, rfl, by omega, by omega⟩
  · intro h
    obtain ⟨c, hc, h1, h2⟩ :=
      (deliver_webhook_outcome_classification 3 0 (.response 301)).mp h
    injection hc with hcc
    omega

/-- Counterexample to C6: an import whose only batch upserts fine ends
in SUCCESS when the completion dispatch works, but in FAILURE when the
dispatch raises — the dispatch is inside the task's try block, so its
failure flips the job's terminal state. -/
theorem dispatch_failure_counterexample :
    (process_csv_upload envOkDispatchOk emptyStore).finalState = .SUCCESS ∧
    (process_csv_upload envOkDispatchFail emptyStore).finalState = .FAILURE ∧
    (process_csv_upload envOkDispatchFail emptyStore).error
      = some .dispatchError :=
  ⟨by decide, by decide, by decide⟩

/-- C6 (amended): whenever all batches upsert successfully, a failure
while dispatching the completion event makes the job end in FAILURE
(the exception propagates out of the task body). -/
theorem dispatch_failure_fails_job (chunks : List Chunk) (s : Store)
    (h : (process_csv_upload ⟨chunks, false⟩ s).finalState = .SUCCESS) :
    (process_csv_upload ⟨chunks, true⟩ s).finalState = .FAILURE := by
  cases herr : (runChunks (total_rows ⟨chunks, false⟩) s 0 chunks).err with
  | some e =>
    have hfs : (process_csv_upload ⟨chunks, false⟩ s).finalState = .FAILURE := by
      simp [process_csv_upload, herr]
    rw [hfs] at h
    exact absurd h (by simp)
  | none =>
    have herr' : (runChunks (total_rows ⟨chunks, true⟩) s 0 chunks).err = none := by
      have hsame : total_rows ⟨chunks, true⟩ = total_rows ⟨chunks, false⟩ := rfl
      rw [hsame]
      exact herr
    simp [process_csv_upload, herr']

/-- Witness for C6 (amended) at a concrete one-batch import. -/
theorem dispatch_failure_fails_job_witness :
    (process_csv_upload ⟨[okChunk], true⟩ emptyStore).finalState = .FAILURE :=
  dispatch_failure_fails_job [okChunk] emptyStore (by decide)

/-- Counterexample to C7: the job that fails during completion dispatch
ends in FAILURE with the source file already deleted — so FAILURE does
not imply the file was left in place. -/
theorem failed_job_with_deleted_file :
    (process_csv_upload envOkDispatchFail emptyStore).finalState = .FAILURE ∧
    (process_csv_upload envOkDispatchFail emptyStore).fileDeleted = true :=
  ⟨by decide, by decide⟩

/-- C7 (amended): the source file is deleted exactly when every batch
was read, normalized and upserted successfully (worker.py:131 runs
right after the chunk loop); a job failing at any batch leaves the file
in place, but a job failing in the later completion dispatch has
already deleted it. -/
theorem file_deleted_iff_batches_committed (env : JobEnv) (s : Store) :
    (process_csv_upload env s).fileDeleted = true ↔
      (runChunks (total_rows env) s 0 env.chunks).err = none := by
  cases herr : (runChunks (total_rows env) s 0 env.chunks).err with
  | some e => simp [process_csv_upload, herr]
  | none => cases hdf : env.dispatchFails <;> simp [process_csv_upload, herr, hdf]

/-- Witness for C7 (amended): the import failing at its second batch
leaves the file in place. -/
theorem file_deleted_iff_batches_committed_witness :
    (process_csv_upload envC3 emptyStore).fileDeleted = false := by
  have h := file_deleted_iff_batches_committed envC3 emptyStore
  cases hb : (process_csv_upload envC3 emptyStore).fileDeleted
  · rfl
  · have hnone := h.mp hb
    have hk : (runChunks (total_rows envC3) emptyStore 0 envC3.chunks).err
        = some (.keyError "sku") := by decide
    rw [hk] at hnone
    exact Option.noConfusion hnone

/-- C8: along any import run, the reported `current` values are
monotonically non-decreasing and never exceed `total`; the state ranks
along the trace never regress (PENDING → STARTED → PROGRESS* →
SUCCESS | FAILURE); and a job ending in SUCCESS reports
`current = total` in its final result while the poll endpoint reports
percent 100 for the SUCCESS state. -/
theorem import_progress_invariants (env : JobEnv) (s : Store) :
    List.Chain' (· ≤ ·) (currents (process_csv_upload env s).trace) ∧
    (∀ x ∈ currents (process_csv_upload env s).trace, x ≤ total_rows env) ∧
    List.Chain' (· ≤ ·) ((process_csv_upload env s).trace.map Upd.rank) ∧
    ((process_csv_upload env s).finalState = .SUCCESS →
      (process_csv_upload env s).trace.getLast?
          = some (.success (total_rows env) (total_rows env)) ∧
      get_task_status .SUCCESS 0 = 100) := by
  have hchain := runChunks_chain env.chunks (total_rows env) s 0
  have hbounds := runChunks_currents_bounds env.chunks (total_rows env) s 0
  have hrank := runChunks_rank env.chunks (total_rows env) s 0
  have hT := total_rows_eq env
  have hbound' : ∀ x ∈ currents (runChunks (total_rows env) s 0 env.chunks).upds,
      x ≤ total_rows env := by
    intro x hx
    have h2 := (hbounds x hx).2
    rw [hT]
    omega
  cases herr : (runChunks (total_rows env) s 0 env.chunks).err with
  | some e =>
    have htr : (process_csv_upload env s).trace
        = Upd.pending :: Upd.started 0 (total_rows env)
            :: (runChunks (total_rows env) s 0 env.chunks).upds
            ++ [Upd.failure] := by
      simp [process_csv_upload, herr]
    have hfs : (process_csv_upload env s).finalState = .FAILURE := by
      simp [process_csv_upload, herr]
    have hg := trace_invariants_generic (total_rows env)
      (runChunks (total_rows env) s 0 env.chunks).upds Upd.failure
      hchain hbound' hrank (Or.inl rfl)
    rw [htr, hfs]
    exact ⟨hg.1, hg.2.1, hg.2.2, fun hsuc => absurd hsuc (by simp)⟩
  | none =>
    cases hdf : env.dispatchFails with
    | true =>
      have htr : (process_csv_upload env s).trace
          = Upd.pending :: Upd.started 0 (total_rows env)
              :: (runChunks (total_rows env) s 0 env.chunks).upds
              ++ [Upd.failure] := by
        simp [process_csv_upload, herr, hdf]
      have hfs : (process_csv_upload env s).finalState = .FAILURE := by
        simp [process_csv_upload, herr, hdf]
      have hg := trace_invariants_generic (total_rows env)
        (runChunks (total_rows env) s 0 env.chunks).upds Upd.failure
        hchain hbound' hrank (Or.inl rfl)
      rw [htr, hfs]
      exact ⟨hg.1, hg.2.1, hg.2.2, fun hsuc => absurd hsuc (by simp)⟩
    | false =>
      have htr : (process_csv_upload env s).trace
          = Upd.pending :: Upd.started 0 (total_rows env)
              :: (runChunks (total_rows env) s 0 env.chunks).upds
              ++ [Upd.success (total_rows env) (total_rows env)] := by
        simp [process_csv_upload, herr, hdf]
      have hg := trace_invariants_generic (total_rows env)
        (runChunks (total_rows env) s 0 env.chunks).upds
        (Upd.success (total_rows env) (total_rows env))
        hchain hbound' hrank (Or.inr rfl)
      rw [htr]
      refine ⟨hg.1, hg.2.1, hg.2.2, fun _ => ⟨?_, rfl⟩⟩
      have hsplit : Upd.pending :: Upd.started 0 (total_rows env)
            :: (runChunks (total_rows env) s 0 env.chunks).upds
            ++ [Upd.success (total_rows env) (total_rows env)]
          = (Upd.pending :: Upd.started 0 (total_rows env)
              :: (runChunks (total_rows env) s 0 env.chunks).upds)
            ++ [Upd.success (total_rows env) (total_rows env)] := by
        simp
      rw [hsplit, List.getLast?_concat]

/-- Witness for C8's SUCCESS clause at a concrete one-batch import. -/
theorem import_progress_invariants_witness :
    (process_csv_upload envOkDispatchOk emptyStore).trace.getLast?
      = some (.success (total_rows envOkDispatchOk)
          (total_rows envOkDispatchOk)) :=
  ((import_progress_invariants envOkDispatchOk emptyStore).2.2.2
    (by decide)).1

/-- C10: on SUCCESS, both the completion payload's `processed_rows` and
the returned `current` equal `total_rows` (the file's line count minus
one), not the cumulative per-batch counter; the counter itself equals
the number of deduplicated records actually handed to the store, so
whenever the intra-batch dedup dropped a row, the reported figure
strictly exceeds it. -/
theorem success_reports_total (env : JobEnv) (s : Store)
    (h : (process_csv_upload env s).finalState = .SUCCESS) :
    (process_csv_upload env s).payload
        = some ⟨"import_completed", total_rows env, total_rows env,
            "completed"⟩ ∧
    (process_csv_upload env s).result
        = some (total_rows env, total_rows env) ∧
    (process_csv_upload env s).processed = dedupSum env.chunks ∧
    ((∃ c ∈ env.chunks, (dropDupLast c.rows).length < c.rows.length) →
      (process_csv_upload env s).processed < total_rows env) := by
  obtain ⟨herr, hdf⟩ := (success_iff env s).mp h
  have hproc := runChunks_ok_processed env.chunks (total_rows env) s 0 herr
  have hpp : (process_csv_upload env s).processed
      = (runChunks (total_rows env) s 0 env.chunks).processed := by
    simp [process_csv_upload, herr, hdf]
  refine ⟨?_, ?_, ?_, ?_⟩
  · simp [process_csv_upload, herr, hdf]
  · simp [process_csv_upload, herr, hdf]
  · omega
  · intro hex
    have hlt := dedupSum_lt_of_dropped env.chunks hex
    have hT := total_rows_eq env
    omega

/-- Witness for C10 at an import whose single chunk holds a duplicated
raw sku. -/
theorem success_reports_total_witness :
    (process_csv_upload dupEnv emptyStore).processed < total_rows dupEnv :=
  (success_reports_total dupEnv emptyStore (by decide)).2.2.2 (by decide)

end ProductImporter
